import Mathlib

/- Shallow embedding of the docker-compose-ztd-plugin deployment pipeline:
   the rolling-update orchestrator (main.go), the health gate and container
   teardown (docker/client.go), and the Traefik dynamic-configuration
   synthesizer and patcher (traefik/generate.go).  Strings are modelled at
   the character-list level so that every operation reduces in the kernel;
   container identifiers in this system are ASCII hex, so character counts
   and byte counts coincide. -/

namespace Ztd

/-- Model of Go strings.HasPrefix at the character level. -/
def hasPrefixB (pre s : String) : Bool := pre.data.isPrefixOf s.data

/-- Model of the Go slice expression id[:12] (defined only on its Go-safe
domain; shortId below models the panic on shorter strings). -/
def take12 (s : String) : String := String.mk (s.data.take 12)

/-- Character-level string length. -/
def strLen (s : String) : Nat := s.data.length

/-- Model of strings.TrimPrefix: the tail after the first n characters. -/
def dropStr (s : String) (n : Nat) : String := String.mk (s.data.drop n)

/-- Scanning loop of Go strings.Split on a non-empty separator: at each
position, if the separator is a prefix of the rest, cut there and continue
after it.  The fuel argument only makes the recursion structural; it is
always called with enough fuel to finish the scan. -/
def splitSeq (sep : List Char) : Nat → List Char → List Char → List (List Char)
  | 0, acc, l => [acc ++ l]
  | fuel + 1, acc, l =>
    match l with
    | [] => [acc]
    | c :: rest =>
      if sep.isPrefixOf l then
        acc :: splitSeq sep fuel [] (l.drop sep.length)
      else
        splitSeq sep fuel (acc ++ [c]) rest

/-- Model of Go strings.Split for a non-empty separator. -/
def stringsSplit (s sep : String) : List String :=
  (splitSeq sep.data (s.data.length + 1) [] s.data).map String.mk

/- ===== docker/client.go : health gate and teardown ===== -/

/-- The health-relevant part of a container-inspect result: either the
container defines no health check (State.Health == nil), or it reports a
status string, or the inspect call itself fails. -/
inductive HealthState
  | noCheck
  | status (s : String)
  | inspectErr
deriving DecidableEq

/-- CheckContainerHealth: inspect failure is an error; a container with no
health check configured is reported healthy; otherwise healthy exactly when
the reported status string is "healthy". -/
def checkContainerHealth : HealthState → Except Unit Bool
  | .noCheck => .ok true
  | .status s => .ok (s == "healthy")
  | .inspectErr => .error ()

/-- The inner per-tick loop of WaitForHealthyContainers: containers are
checked in order; an inspect error aborts the whole wait; the loop breaks at
the first container that is not healthy.  The world is a function giving
each container's inspect result at each tick. -/
def checkAllHealthy (health : String → Nat → HealthState) (t : Nat) :
    List String → Except Unit Bool
  | [] => .ok true
  | cid :: rest =>
    match checkContainerHealth (health cid t) with
    | .error _ => .error ()
    | .ok true => checkAllHealthy health t rest
    | .ok false => .ok false

inductive GateError
  | adapter
  | timeout
deriving DecidableEq

/-- Outer loop of WaitForHealthyContainers: one probe of every container per
one-second tick until the deadline; the tick budget is the number of loop
iterations the deadline allows. -/
def waitForHealthyAux (health : String → Nat → HealthState) (ids : List String) :
    Nat → Nat → Except GateError Unit
  | _, 0 => .error .timeout
  | t, fuel + 1 =>
    match checkAllHealthy health t ids with
    | .error _ => .error .adapter
    | .ok true => .ok ()
    | .ok false => waitForHealthyAux health ids (t + 1) fuel

/-- WaitForHealthyContainers with a tick budget in place of the wall-clock
deadline. -/
def waitForHealthyContainers (health : String → Nat → HealthState)
    (ids : List String) (ticks : Nat) : Except GateError Unit :=
  waitForHealthyAux health ids 0 ticks

/-- Boolean abstraction of one container probe succeeding. -/
def healthyB : HealthState → Bool
  | .noCheck => true
  | .status s => s == "healthy"
  | .inspectErr => false

/-- All containers report healthy at tick t. -/
def allHealthyB (health : String → Nat → HealthState) (ids : List String)
    (t : Nat) : Bool :=
  ids.all (fun cid => healthyB (health cid t))

/-- Container stop / remove requests issued to the runtime adapter. -/
inductive Action
  | stop (id : String)
  | remove (id : String)
deriving DecidableEq

def Action.cid : Action → String
  | .stop i => i
  | .remove i => i

/-- StopAndRemoveContainers: stop then remove each container in order,
returning early on the first adapter failure.  The adapter is modelled by
two predicates saying which stop and remove requests succeed; the returned
list is the requests actually issued, the Bool whether all succeeded. -/
def stopAndRemoveContainers (stopOk removeOk : String → Bool) :
    List String → List Action × Bool
  | [] => ([], true)
  | cid :: rest =>
    if stopOk cid then
      if removeOk cid then
        let p := stopAndRemoveContainers stopOk removeOk rest
        (Action.stop cid :: Action.remove cid :: p.1, p.2)
      else
        ([Action.stop cid, Action.remove cid], false)
    else
      ([Action.stop cid], false)

/-- The ids of stop requests in an action list. -/
def stopsOf (acts : List Action) : List String :=
  acts.filterMap (fun a => match a with | .stop i => some i | _ => none)

/-- The ids of remove requests in an action list. -/
def removesOf (acts : List Action) : List String :=
  acts.filterMap (fun a => match a with | .remove i => some i | _ => none)

/- ===== traefik/generate.go : configuration model ===== -/

structure Router where
  rule : String
  service : String
deriving DecidableEq

structure Server where
  url : String
deriving DecidableEq

structure HealthCheck where
  path : String
  interval : String
  timeout : String
  scheme : String
  mode : String
  hostname : String
  port : String
  followRedirects : String
  method : String
  status : String
  headers : List (String × String)
deriving DecidableEq

structure LoadBalancer where
  servers : List Server
  healthCheck : Option HealthCheck
deriving DecidableEq

structure Service where
  loadBalancer : LoadBalancer
deriving DecidableEq

/-- The parsed Traefik dynamic configuration.  The Go maps are modelled as
association lists (the patcher only maps over their values, so iteration
order is immaterial). -/
structure TraefikConfig where
  routers : List (String × Router)
  services : List (String × Service)
deriving DecidableEq

/- ===== traefik/generate.go : health-check extraction ===== -/

/-- Lookup in a Go map of labels: the value for a key, or the empty string
when absent. -/
def labelGet (labels : List (String × String)) (key : String) : String :=
  match labels.find? (fun p => p.1 == key) with
  | some p => p.2
  | none => ""

/-- The label-key stem built in extractHealthCheck. -/
def hcKeyBase (serviceName : String) : String :=
  "traefik.http.services." ++ serviceName ++ ".loadbalancer.healthCheck"

/-- Go map insertion: overwrite an existing binding, else append. -/
def mapInsert (m : List (String × String)) (k v : String) :
    List (String × String) :=
  if m.any (fun p => p.1 == k) then
    m.map (fun p => if p.1 == k then (k, v) else p)
  else
    m ++ [(k, v)]

/-- The header-collection loop of extractHealthCheck.  A label exactly equal
to the ".headers" key is a JSON blob: when it decodes, the whole map so far
is replaced by the decoded one (as in the source, which assigns rather than
merges).  A label under the ".headers." namespace contributes one entry.
The JSON decoder is the external encoding/json collaborator, passed in as a
parameter. -/
def collectHeaders (jsonDec : String → Option (List (String × String)))
    (pre : String) :
    List (String × String) → List (String × String) → List (String × String)
  | acc, [] => acc
  | acc, (k, v) :: rest =>
    if k == pre ++ ".headers" then
      match jsonDec v with
      | some parsed => collectHeaders jsonDec pre parsed rest
      | none => collectHeaders jsonDec pre acc rest
    else if hasPrefixB (pre ++ ".headers.") k then
      collectHeaders jsonDec pre
        (mapInsert acc (dropStr k (strLen (pre ++ ".headers."))) v) rest
    else
      collectHeaders jsonDec pre acc rest

/-- The field-population part of extractHealthCheck.  The source assigns a
field only when its label value is non-empty; since the zero value of a Go
string field is the empty string, that is the same as assigning the looked-up
value unconditionally, which is how it is written here. -/
def mkHealthCheck (jsonDec : String → Option (List (String × String)))
    (labels : List (String × String)) (serviceName : String) : HealthCheck :=
  let pre := hcKeyBase serviceName
  { path := labelGet labels (pre ++ ".path")
    interval := labelGet labels (pre ++ ".interval")
    timeout := labelGet labels (pre ++ ".timeout")
    scheme := labelGet labels (pre ++ ".scheme")
    mode := labelGet labels (pre ++ ".mode")
    hostname := labelGet labels (pre ++ ".hostname")
    port := labelGet labels (pre ++ ".port")
    followRedirects := labelGet labels (pre ++ ".followRedirects")
    method := labelGet labels (pre ++ ".method")
    status := labelGet labels (pre ++ ".status")
    headers := collectHeaders jsonDec (hcKeyBase serviceName) [] labels }

/-- extractHealthCheck: nil unless some label key carries the health-check
stem for this service. -/
def extractHealthCheck (jsonDec : String → Option (List (String × String)))
    (labels : List (String × String)) (serviceName : String) :
    Option HealthCheck :=
  if labels.any (fun p => hasPrefixB (hcKeyBase serviceName) p.1) then
    some (mkHealthCheck jsonDec labels serviceName)
  else
    none

/-- The hasValues test in GenerateConfig: at least one field non-empty. -/
def hcHasValues (hc : HealthCheck) : Bool :=
  hc.path != "" || hc.interval != "" || hc.timeout != "" || hc.scheme != "" ||
  hc.mode != "" || hc.hostname != "" || hc.port != "" ||
  hc.followRedirects != "" || hc.method != "" || hc.status != "" ||
  decide (0 < hc.headers.length)

/-- The health-check attachment decision of GenerateConfig: extract, then
attach only when the extracted spec has at least one non-empty field. -/
def attachHealthCheck (jsonDec : String → Option (List (String × String)))
    (labels : List (String × String)) (serviceName : String) :
    Option HealthCheck :=
  match extractHealthCheck jsonDec labels serviceName with
  | none => none
  | some hc => if hcHasValues hc then some hc else none

/- ===== traefik/generate.go : UpdateConfig (the patcher) ===== -/

/-- The Go slice id[:12], made total: none models the out-of-range panic on
an identifier shorter than 12 characters. -/
def shortId (s : String) : Option String :=
  if 12 ≤ strLen s then some (take12 s) else none

/-- Loop building the old-to-new container map: one binding per positional
pair (indices past the shorter list never slice, hence the zip); none when
some paired identifier is too short to slice. -/
def buildContainerMapAux (m : List (String × String)) :
    List (String × String) → Option (List (String × String))
  | [] => some m
  | (o, n) :: rest =>
    match shortId o, shortId n with
    | some so, some sn => buildContainerMapAux (mapInsert m so sn) rest
    | _, _ => none

def buildContainerMap (old new : List String) :
    Option (List (String × String)) :=
  buildContainerMapAux [] (old.zip new)

/-- Go map lookup on a map built by mapInsert (keys are unique). -/
def mapLookup (m : List (String × String)) (k : String) : Option String :=
  (m.find? (fun p => p.1 == k)).map (fun p => p.2)

/-- The URL dissection of UpdateConfig: split on the double slash into
exactly two parts, then split the remainder on the colon into exactly two
parts, yielding the embedded host identifier and the port. -/
def parseServerURL (url : String) : Option (String × String) :=
  match stringsSplit url "//" with
  | [_, rest] =>
    match stringsSplit rest ":" with
    | [host, port] => some (host, port)
    | _ => none
  | _ => none

/-- Per-server body of the UpdateConfig loop: a URL that does not dissect is
left untouched; a dissected host identifier found in the container map is
rewritten. -/
def rewriteServer (cmap : List (String × String)) (s : Server) : Server :=
  match parseServerURL s.url with
  | none => s
  | some (host, port) =>
    match mapLookup cmap host with
    | none => s
    | some newId => { url := "http://" ++ newId ++ ":" ++ port }

/-- The service-update loops of UpdateConfig: every server of every service
is passed through rewriteServer; nothing else is assigned. -/
def updateServers (cmap : List (String × String)) (cfg : TraefikConfig) :
    TraefikConfig :=
  { cfg with
    services := cfg.services.map (fun e =>
      (e.1,
       { loadBalancer :=
         { servers := e.2.loadBalancer.servers.map (rewriteServer cmap)
           healthCheck := e.2.loadBalancer.healthCheck } })) }

/-- UpdateConfig on an already-parsed document: none models the panic of the
container-map construction. -/
def updateConfig (old new : List String) (cfg : TraefikConfig) :
    Option TraefikConfig :=
  match buildContainerMap old new with
  | none => none
  | some cmap => some (updateServers cmap cfg)

/- ===== file-system effects of publication ===== -/

inductive FsOp
  | writeFile (path : String) (contents : String)
  | rename (src dst : String)
deriving DecidableEq

/-- The file-system effect trace of the publication step of GenerateConfig:
a single os.WriteFile of the serialized document to the configuration
path. -/
def generateConfigPublish (configPath yamlData : String) : List FsOp :=
  [FsOp.writeFile configPath yamlData]

/-- The file-system effect trace of the publication step of UpdateConfig:
likewise a single os.WriteFile to the configuration path. -/
def updateConfigPublish (configPath yamlData : String) : List FsOp :=
  [FsOp.writeFile configPath yamlData]

def countRenames (ops : List FsOp) : Nat :=
  ops.countP (fun op => match op with | FsOp.rename _ _ => true | _ => false)

/- ===== main.go : the orchestrator ===== -/

/-- The newContainers filter of main.go: keep every post-scale identifier
that equals no pre-scale identifier. -/
def filterNew (scaled old : List String) : List String :=
  scaled.filter (fun cid => !(old.contains cid))

inductive Event
  | deployService
  | readContainers
  | scaleService (target : Nat)
  | healthGate (ids : List String)
  | updateTraefik (old new : List String)
  | stopContainer (id : String)
  | removeContainer (id : String)
  | generateTraefik
deriving DecidableEq

def Action.toEvent : Action → Event
  | .stop i => .stopContainer i
  | .remove i => .removeContainer i

inductive Stage
  | readService
  | readOld
  | scaling
  | cleanup
deriving DecidableEq

inductive Outcome
  | success
  | deployed
  | fatal (s : Stage)
  | rolledBack
deriving DecidableEq

/-- One invocation's world: the results the runtime adapter hands back at
each step of main.go's rolling-update path. -/
structure RunWorld where
  readResult1 : Except Unit (List String)
  readResult2 : Except Unit (List String)
  scaleResult : Except Unit (List String)
  health : String → Nat → HealthState
  healthTicks : Nat
  stopOk : String → Bool
  removeOk : String → Bool

/-- The rolling-update path of main.go, as the adapter-request trace it
emits together with its outcome.  Mirrored decisions: an empty container
set degenerates into a plain service start; the scale target is twice the
first read's count; newContainers is the filtered second scale read; any
error from the health gate takes the rollback branch (stop and remove the
new containers, outcome non-zero, teardown errors only logged); a cleanup
error is fatal; the configuration update's own failure is only a warning.
The two drain sleeps have no adapter-visible effect and carry no event. -/
def mainRun (w : RunWorld) : List Event × Outcome :=
  match w.readResult1 with
  | .error _ => ([Event.readContainers], .fatal .readService)
  | .ok containers =>
    if containers.isEmpty then
      ([Event.readContainers, Event.deployService], .deployed)
    else
      match w.readResult2 with
      | .error _ => ([Event.readContainers, Event.readContainers], .fatal .readOld)
      | .ok old =>
        match w.scaleResult with
        | .error _ =>
          ([Event.readContainers, Event.readContainers,
            Event.scaleService (containers.length * 2)], .fatal .scaling)
        | .ok scaled =>
          let newC := filterNew scaled old
          let pre := [Event.readContainers, Event.readContainers,
                      Event.scaleService (containers.length * 2),
                      Event.healthGate newC]
          match waitForHealthyContainers w.health newC w.healthTicks with
          | .error _ =>
            let p := stopAndRemoveContainers w.stopOk w.removeOk newC
            (pre ++ p.1.map Action.toEvent, .rolledBack)
          | .ok _ =>
            let p := stopAndRemoveContainers w.stopOk w.removeOk old
            (pre ++ [Event.updateTraefik old newC] ++ p.1.map Action.toEvent,
             if p.2 then .success else .fatal .cleanup)

/-- Stop-request ids appearing in an event trace. -/
def stoppedIds (es : List Event) : List String :=
  es.filterMap (fun e => match e with | Event.stopContainer i => some i | _ => none)

/-- Remove-request ids appearing in an event trace. -/
def removedIds (es : List Event) : List String :=
  es.filterMap (fun e => match e with | Event.removeContainer i => some i | _ => none)

/-- Number of synthesizer invocations in an event trace. -/
def countGenerate (es : List Event) : Nat :=
  es.countP (fun e => e == Event.generateTraefik)

/- ===== spec-side patcher, for the refinement claim ===== -/

/-- The patcher as the specification words it: element i of the old list is
paired with element i of the new list, only as far as the shorter list
reaches; a target address that dissects and whose embedded identifier is
the 12-character short form of some paired old identifier is rewritten to
the matching new short identifier; every other address is untouched. -/
def specRewriteServer (old new : List String) (s : Server) : Server :=
  match parseServerURL s.url with
  | none => s
  | some (host, port) =>
    match (old.zip new).find? (fun p => take12 p.1 == host) with
    | none => s
    | some p => { url := "http://" ++ take12 p.2 ++ ":" ++ port }

/-- The spec-side whole-document patch: rewrite servers across all services,
preserve everything else. -/
def specPatch (old new : List String) (cfg : TraefikConfig) : TraefikConfig :=
  { cfg with
    services := cfg.services.map (fun e =>
      (e.1,
       { loadBalancer :=
         { servers := e.2.loadBalancer.servers.map (specRewriteServer old new)
           healthCheck := e.2.loadBalancer.healthCheck } })) }

/- ===== decidability and concrete example inputs ===== -/

instance {ε α : Type} [DecidableEq ε] [DecidableEq α] : DecidableEq (Except ε α) :=
  fun a b =>
    match a, b with
    | .error e, .error f =>
      if h : e = f then isTrue (by rw [h]) else isFalse (fun hh => h (Except.error.inj hh))
    | .error _, .ok _ => isFalse (fun hh => Except.noConfusion hh)
    | .ok _, .error _ => isFalse (fun hh => Except.noConfusion hh)
    | .ok x, .ok y =>
      if h : x = y then isTrue (by rw [h]) else isFalse (fun hh => h (Except.ok.inj hh))

/-- A world for one healthy one-replica rolling update: one old container,
the scale read returns it plus one new container, every container reports
no configured health check, teardown succeeds. -/
def w2 : RunWorld :=
  { readResult1 := .ok ["aaaaaaaaaaaa"]
    readResult2 := .ok ["aaaaaaaaaaaa"]
    scaleResult := .ok ["aaaaaaaaaaaa", "bbbbbbbbbbbb"]
    health := fun _ _ => .noCheck
    healthTicks := 3
    stopOk := fun _ => true
    removeOk := fun _ => true }

/-- The same run but every container-inspect call fails. -/
def w3 : RunWorld := { w2 with health := fun _ _ => .inspectErr }

/-- The same run but the new container never reports healthy. -/
def w4 : RunWorld :=
  { w2 with health := fun _ _ => .status "starting", healthTicks := 2 }

/-- A health world in which every container becomes healthy at tick 2. -/
def gateHealth9 : String → Nat → HealthState :=
  fun _ t => if 2 ≤ t then .status "healthy" else .status "starting"

/-- A published document with one router and one service holding one
rewritable target address and one unparsable one. -/
def cfg6 : TraefikConfig :=
  { routers := [("api", { rule := "rule1", service := "api" })]
    services := [("api",
      { loadBalancer :=
        { servers := [{ url := "http://aaaaaaaaaaaa:80" }, { url := "unparsable" }]
          healthCheck := none } })] }

/-- The document cfg6 after replacing container aaaaaaaaaaaa by
cccccccccccc. -/
def cfg6res : TraefikConfig :=
  { routers := [("api", { rule := "rule1", service := "api" })]
    services := [("api",
      { loadBalancer :=
        { servers := [{ url := "http://cccccccccccc:80" }, { url := "unparsable" }]
          healthCheck := none } })] }

/- ========================= theorems ========================= -/

/-- Helper: an empty-or-not list test. -/
theorem isEmpty_false_of_ne_nil {c : List String} (h : c ≠ []) :
    c.isEmpty = false := by
  cases c with
  | nil => exact absurd rfl h
  | cons a t => rfl

/-- Helper: the actions of the teardown loop never map to a synthesizer
event. -/
theorem countGenerate_map_toEvent (acts : List Action) :
    countGenerate (acts.map Action.toEvent) = 0 := by
  unfold countGenerate
  rw [List.countP_map]
  rw [List.countP_eq_zero]
  intro a _
  cases a <;> simp [Action.toEvent]

/-- C1: the claim states that GenerateConfig and UpdateConfig publish the
routing document by writing to a temporary path and renaming it into place.
The publication effect trace of GenerateConfig is a single direct write to
the configuration path: it is not of the write-temporary-then-rename shape,
and neither publication trace contains any rename. -/
theorem c1_counterexample :
    countRenames (generateConfigPublish "traefik/dynamic_conf.yml" "doc") = 0
    ∧ countRenames (updateConfigPublish "traefik/dynamic_conf.yml" "doc") = 0
    ∧ ¬ ∃ tmp : String,
        generateConfigPublish "traefik/dynamic_conf.yml" "doc" =
          [FsOp.writeFile tmp "doc",
           FsOp.rename tmp "traefik/dynamic_conf.yml"] := by
  refine ⟨rfl, rfl, ?_⟩
  rintro ⟨tmp, h⟩
  simp [generateConfigPublish] at h

/-- C1 (amended): every publication, by the Synthesizer (GenerateConfig)
and by the Patcher (UpdateConfig), is one direct write of the serialized
document to the configuration path; no temporary path and no rename is
involved. -/
theorem c1_publish_direct_write (configPath yamlData : String) :
    generateConfigPublish configPath yamlData = [FsOp.writeFile configPath yamlData]
    ∧ updateConfigPublish configPath yamlData = [FsOp.writeFile configPath yamlData]
    ∧ countRenames (generateConfigPublish configPath yamlData) = 0
    ∧ countRenames (updateConfigPublish configPath yamlData) = 0 :=
  ⟨rfl, rfl, rfl, rfl⟩

/-- C2: the claim states that a rolling update reaching the Cleanup step
then runs the Synthesizer to rebuild the routing document.  In the world
w2 the update runs to a successful end and the old container is stopped
during Cleanup, yet the trace contains no synthesizer invocation. -/
theorem c2_counterexample :
    (mainRun w2).2 = Outcome.success
    ∧ Event.stopContainer "aaaaaaaaaaaa" ∈ (mainRun w2).1
    ∧ countGenerate (mainRun w2).1 = 0 := by
  decide

/-- C2 (amended): the Orchestrator of the compiled implementation never
invokes the Synthesizer: no run of the rolling-update path, whatever the
world, emits a generateTraefik event, so no resync happens after Cleanup
and the run terminates with the Patcher's document as the final routing
state. -/
theorem c2_no_resync (w : RunWorld) : countGenerate (mainRun w).1 = 0 := by
  unfold mainRun
  cases w.readResult1 with
  | error e => simp [countGenerate]
  | ok containers =>
    by_cases hemp : containers.isEmpty
    · simp [hemp, countGenerate]
    · simp only [hemp]
      cases w.readResult2 with
      | error e => simp [countGenerate]
      | ok old =>
        cases w.scaleResult with
        | error e => simp [countGenerate]
        | ok scaled =>
          simp only []
          cases hgate : waitForHealthyContainers w.health (filterNew scaled old) w.healthTicks with
          | error e =>
            simp [countGenerate, List.countP_append, List.countP_cons, hgate]
            intro a _
            cases a <;> simp [Action.toEvent]
          | ok u =>
            simp [countGenerate, List.countP_append, List.countP_cons, hgate]
            intro a _
            cases a <;> simp [Action.toEvent]

/-- C3: the claim states that the rollback branch is taken if and only if
the health gate times out, any inspect error during health gating being a
fatal abort instead.  In the world w3 the inspect calls fail, so the gate
returns an adapter error and not a timeout, and the run nevertheless takes
the rollback branch. -/
theorem c3_counterexample :
    (mainRun w3).2 = Outcome.rolledBack
    ∧ waitForHealthyContainers w3.health
        (filterNew ["aaaaaaaaaaaa", "bbbbbbbbbbbb"] ["aaaaaaaaaaaa"]) w3.healthTicks
        = Except.error GateError.adapter := by
  decide

/-- C3 (amended): the rollback branch is taken exactly when the run reaches
the health gate and the gate returns any error — a timeout or a
container-inspect failure during polling; a Runtime Adapter error during
Scaling aborts fatally without stopping or removing any container. -/
theorem c3_rollback_iff_gate_error (w : RunWorld) :
    ((mainRun w).2 = Outcome.rolledBack ↔
      ∃ c old scaled, w.readResult1 = Except.ok c ∧ c ≠ [] ∧
        w.readResult2 = Except.ok old ∧ w.scaleResult = Except.ok scaled ∧
        ∃ e, waitForHealthyContainers w.health (filterNew scaled old) w.healthTicks
          = Except.error e)
    ∧ (∀ c old, w.readResult1 = Except.ok c → c ≠ [] →
        w.readResult2 = Except.ok old → w.scaleResult = Except.error () →
        (mainRun w).2 = Outcome.fatal Stage.scaling
        ∧ stoppedIds (mainRun w).1 = [] ∧ removedIds (mainRun w).1 = []) := by
  constructor
  · constructor
    · intro h
      unfold mainRun at h
      cases h1 : w.readResult1 with
      | error u => rw [h1] at h; simp at h
      | ok containers =>
        rw [h1] at h
        by_cases hemp : containers.isEmpty
        · simp [hemp] at h
        · simp only [hemp, Bool.false_eq_true, if_false] at h
          cases h2 : w.readResult2 with
          | error u => rw [h2] at h; simp at h
          | ok old =>
            rw [h2] at h
            cases h3 : w.scaleResult with
            | error u => rw [h3] at h; simp at h
            | ok scaled =>
              rw [h3] at h
              simp only [] at h
              cases hg : waitForHealthyContainers w.health (filterNew scaled old) w.healthTicks with
              | error e =>
                refine ⟨containers, old, scaled, rfl, ?_, rfl, rfl, e, hg⟩
                intro hnil
                rw [hnil] at hemp
                exact hemp rfl
              | ok u =>
                rw [hg] at h
                simp only [] at h
                by_cases hp : (stopAndRemoveContainers w.stopOk w.removeOk old).2
                · simp [hp] at h
                · simp [hp] at h
    · rintro ⟨c, old, scaled, h1, hne, h2, h3, e, hg⟩
      simp [mainRun, h1, h2, h3, hg, isEmpty_false_of_ne_nil hne]
  · intro c old h1 hne h2 h3
    simp [mainRun, h1, h2, h3, isEmpty_false_of_ne_nil hne, stoppedIds, removedIds]

/-- C3 (amended) witness: in the concrete world w3 the gate fails with an
adapter error, and the amended theorem yields the rollback outcome. -/
theorem c3_rollback_witness : (mainRun w3).2 = Outcome.rolledBack :=
  ((c3_rollback_iff_gate_error w3).1).mpr
    ⟨["aaaaaaaaaaaa"], ["aaaaaaaaaaaa"], ["aaaaaaaaaaaa", "bbbbbbbbbbbb"],
     rfl, by decide, rfl, rfl, GateError.adapter, by decide⟩

/-- Helper: membership in the newContainers filter is membership in the
post-scale read minus the pre-scale read. -/
theorem mem_filterNew (scaled old : List String) (x : String) :
    x ∈ filterNew scaled old ↔ (x ∈ scaled ∧ x ∉ old) := by
  simp [filterNew, List.mem_filter, List.contains]

/-- Helper: every stop or remove request issued by the teardown loop names
a container of its input list. -/
theorem stopAndRemove_ids_sub (s r : String → Bool) (ids : List String) :
    ∀ x : String,
      (x ∈ stopsOf (stopAndRemoveContainers s r ids).1 → x ∈ ids)
      ∧ (x ∈ removesOf (stopAndRemoveContainers s r ids).1 → x ∈ ids) := by
  induction ids with
  | nil => intro x; simp [stopAndRemoveContainers, stopsOf, removesOf]
  | cons cid rest ih =>
    intro x
    by_cases hs : s cid
    · by_cases hr : r cid
      · simp only [stopAndRemoveContainers, hs, hr, if_true]
        constructor
        · intro hx
          simp [stopsOf, List.filterMap_cons] at hx
          rcases hx with h | h
          · simp [h]
          · exact List.mem_cons_of_mem _ ((ih x).1 (by simpa [stopsOf] using h))
        · intro hx
          simp [removesOf, List.filterMap_cons] at hx
          rcases hx with h | h
          · simp [h]
          · exact List.mem_cons_of_mem _ ((ih x).2 (by simpa [removesOf] using h))
      · simp only [stopAndRemoveContainers, hs, hr, if_true, if_false]
        constructor
        · intro hx
          simp [stopsOf, List.filterMap_cons] at hx
          simp [hx]
        · intro hx
          simp [removesOf, List.filterMap_cons] at hx
          simp [hx]
    · simp only [stopAndRemoveContainers, hs, if_false]
      constructor
      · intro hx
        simp [stopsOf, List.filterMap_cons] at hx
        simp [hx]
      · intro hx
        simp [removesOf, List.filterMap_cons] at hx

/-- Helper: when every stop and remove request succeeds, the teardown loop
issues exactly one stop and one remove per input container, in order. -/
theorem stopAndRemove_success (s r : String → Bool) (ids : List String)
    (hs : ∀ i, s i = true) (hr : ∀ i, r i = true) :
    stopsOf (stopAndRemoveContainers s r ids).1 = ids
    ∧ removesOf (stopAndRemoveContainers s r ids).1 = ids := by
  induction ids with
  | nil => simp [stopAndRemoveContainers, stopsOf, removesOf]
  | cons cid rest ih =>
    simp only [stopAndRemoveContainers, hs cid, hr cid, if_true]
    constructor
    · simp only [stopsOf, List.filterMap_cons]
      simp only [List.cons.injEq, true_and]
      exact ih.1
    · simp only [removesOf, List.filterMap_cons]
      simp only [List.cons.injEq, true_and]
      exact ih.2

/-- Helper: the stop requests named in the event image of an action list. -/
theorem stoppedIds_map_toEvent (acts : List Action) :
    stoppedIds (acts.map Action.toEvent) = stopsOf acts := by
  unfold stoppedIds stopsOf
  rw [List.filterMap_map]
  apply List.filterMap_congr
  intro a _
  cases a <;> rfl

/-- Helper: the remove requests named in the event image of an action
list. -/
theorem removedIds_map_toEvent (acts : List Action) :
    removedIds (acts.map Action.toEvent) = removesOf acts := by
  unfold removedIds removesOf
  rw [List.filterMap_map]
  apply List.filterMap_congr
  intro a _
  cases a <;> rfl

/-- C4: when the health gate of a rolling update fails, the rollback stops
and removes only identifiers of the computed newContainers set and no
identifier of oldContainers; when the runtime adapter accepts every stop
and remove request, the rollback stops and removes exactly the
newContainers set. -/
theorem c4_rollback_targets (w : RunWorld) (c old scaled : List String)
    (h1 : w.readResult1 = Except.ok c) (hne : c ≠ [])
    (h2 : w.readResult2 = Except.ok old) (h3 : w.scaleResult = Except.ok scaled)
    (hgate : ∃ e, waitForHealthyContainers w.health (filterNew scaled old)
        w.healthTicks = Except.error e) :
    (∀ x ∈ stoppedIds (mainRun w).1, x ∈ filterNew scaled old ∧ x ∉ old)
    ∧ (∀ x ∈ removedIds (mainRun w).1, x ∈ filterNew scaled old ∧ x ∉ old)
    ∧ ((∀ i, w.stopOk i = true) → (∀ i, w.removeOk i = true) →
        stoppedIds (mainRun w).1 = filterNew scaled old
        ∧ removedIds (mainRun w).1 = filterNew scaled old) := by
  obtain ⟨e, hg⟩ := hgate
  have htrace : (mainRun w).1 =
      [Event.readContainers, Event.readContainers,
       Event.scaleService (c.length * 2), Event.healthGate (filterNew scaled old)]
      ++ ((stopAndRemoveContainers w.stopOk w.removeOk (filterNew scaled old)).1.map
            Action.toEvent) := by
    simp [mainRun, h1, h2, h3, hg, isEmpty_false_of_ne_nil hne]
  have hstops : stoppedIds (mainRun w).1 =
      stopsOf (stopAndRemoveContainers w.stopOk w.removeOk (filterNew scaled old)).1 := by
    rw [htrace]
    unfold stoppedIds
    rw [List.filterMap_append]
    rw [← stoppedIds_map_toEvent]
    rfl
  have hremoves : removedIds (mainRun w).1 =
      removesOf (stopAndRemoveContainers w.stopOk w.removeOk (filterNew scaled old)).1 := by
    rw [htrace]
    unfold removedIds
    rw [List.filterMap_append]
    rw [← removedIds_map_toEvent]
    rfl
  refine ⟨?_, ?_, ?_⟩
  · intro x hx
    rw [hstops] at hx
    have hmem := (stopAndRemove_ids_sub w.stopOk w.removeOk (filterNew scaled old) x).1 hx
    exact ⟨hmem, ((mem_filterNew scaled old x).1 hmem).2⟩
  · intro x hx
    rw [hremoves] at hx
    have hmem := (stopAndRemove_ids_sub w.stopOk w.removeOk (filterNew scaled old) x).2 hx
    exact ⟨hmem, ((mem_filterNew scaled old x).1 hmem).2⟩
  · intro hs hr
    have hsucc := stopAndRemove_success w.stopOk w.removeOk (filterNew scaled old) hs hr
    exact ⟨hstops.trans hsucc.1, hremoves.trans hsucc.2⟩

/-- C4 witness: in the world w4 the gate times out and the rollback stops
and removes exactly the one computed new container. -/
theorem c4_rollback_witness :
    stoppedIds (mainRun w4).1 = filterNew ["aaaaaaaaaaaa", "bbbbbbbbbbbb"] ["aaaaaaaaaaaa"]
    ∧ removedIds (mainRun w4).1 = filterNew ["aaaaaaaaaaaa", "bbbbbbbbbbbb"] ["aaaaaaaaaaaa"] :=
  (c4_rollback_targets w4 ["aaaaaaaaaaaa"] ["aaaaaaaaaaaa"]
      ["aaaaaaaaaaaa", "bbbbbbbbbbbb"] rfl (by decide) rfl rfl
      ⟨GateError.timeout, by decide⟩).2.2 (fun i => rfl) (fun i => rfl)

/-- Helper: a filter and its complementary filter split a list's length. -/
theorem length_filter_add_length_not (p : String → Bool) (l : List String) :
    (l.filter p).length + (l.filter (fun a => !(p a))).length = l.length := by
  induction l with
  | nil => rfl
  | cons a t ih =>
    cases hp : p a <;> simp [List.filter_cons, hp] <;> omega

/-- Helper: on duplicate-free reads where the pre-scale set survives into
the post-scale set, the containers kept by the membership filter are
exactly as many as the pre-scale containers. -/
theorem length_filter_mem (scaled old : List String) (hs : scaled.Nodup)
    (ho : old.Nodup) (hsub : ∀ x ∈ old, x ∈ scaled) :
    (scaled.filter (fun cid => old.contains cid)).length = old.length := by
  have hperm : List.Perm (scaled.filter (fun cid => old.contains cid)) old := by
    rw [List.perm_ext_iff_of_nodup (hs.filter _) ho]
    intro a
    simp only [List.mem_filter, List.contains]
    constructor
    · intro h
      simpa using h.2
    · intro h
      exact ⟨hsub a h, by simpa using h⟩
  exact hperm.length_eq

/-- C5: with stable pre-scale reads, the orchestrator requests exactly
twice the pre-scale count; the computed newContainers list is the
membership difference of the post-scale read and the pre-scale read; and
on duplicate-free reads of sizes 2n and n with the old set surviving, it
has exactly n members. -/
theorem c5_scale_and_diff (w : RunWorld) (c scaled : List String)
    (h1 : w.readResult1 = Except.ok c) (hne : c ≠ [])
    (h2 : w.readResult2 = Except.ok c) (h3 : w.scaleResult = Except.ok scaled) :
    Event.scaleService (c.length * 2) ∈ (mainRun w).1
    ∧ (∀ x, x ∈ filterNew scaled c ↔ (x ∈ scaled ∧ x ∉ c))
    ∧ (scaled.Nodup → c.Nodup → (∀ x ∈ c, x ∈ scaled) →
        scaled.length = 2 * c.length → (filterNew scaled c).length = c.length) := by
  refine ⟨?_, fun x => mem_filterNew scaled c x, ?_⟩
  · unfold mainRun
    rw [h1, h2, h3]
    simp only [isEmpty_false_of_ne_nil hne, Bool.false_eq_true, if_false]
    cases hg : waitForHealthyContainers w.health (filterNew scaled c) w.healthTicks with
    | error e => simp
    | ok u => simp
  · intro hs hc hsub hlen
    have hsplit := length_filter_add_length_not (fun cid => c.contains cid) scaled
    have hmem := length_filter_mem scaled c hs hc hsub
    unfold filterNew
    omega

/-- C5 witness: the concrete world w2 reads one container, requests scale
two, and computes a one-element disjoint newContainers set. -/
theorem c5_scale_witness :
    Event.scaleService 2 ∈ (mainRun w2).1
    ∧ (filterNew ["aaaaaaaaaaaa", "bbbbbbbbbbbb"] ["aaaaaaaaaaaa"]).length = 1 := by
  have h := c5_scale_and_diff w2 ["aaaaaaaaaaaa"] ["aaaaaaaaaaaa", "bbbbbbbbbbbb"]
    rfl (by decide) rfl rfl
  exact ⟨h.1, h.2.2 (by decide) (by decide) (by decide) (by decide)⟩

/-- Helper: inserting an unbound key appends it. -/
theorem mapInsert_of_fresh (m : List (String × String)) (k v : String)
    (h : ∀ q ∈ m, (q.1 == k) = false) : mapInsert m k v = m ++ [(k, v)] := by
  unfold mapInsert
  have hany : m.any (fun p => p.1 == k) = false := by
    rw [List.any_eq_false]
    intro q hq
    simp [h q hq]
  simp [hany]

/-- Helper: on pairs whose identifiers are long enough and whose short old
identifiers are pairwise distinct, the container-map loop appends one
short-id binding per positional pair. -/
theorem buildContainerMapAux_spec (pairs : List (String × String)) :
    ∀ m0 : List (String × String),
      (∀ p ∈ pairs, 12 ≤ strLen p.1 ∧ 12 ≤ strLen p.2) →
      (∀ p ∈ pairs, ∀ q ∈ m0, (q.1 == take12 p.1) = false) →
      ((pairs.map (fun p => take12 p.1)).Nodup) →
      buildContainerMapAux m0 pairs
        = some (m0 ++ pairs.map (fun p => (take12 p.1, take12 p.2))) := by
  induction pairs with
  | nil => intro m0 _ _ _; simp [buildContainerMapAux]
  | cons pr rest ih =>
    intro m0 hlen hfresh hnd
    obtain ⟨o, n⟩ := pr
    have ho : shortId o = some (take12 o) := by
      unfold shortId
      rw [if_pos (hlen (o, n) (by simp)).1]
    have hn : shortId n = some (take12 n) := by
      unfold shortId
      rw [if_pos (hlen (o, n) (by simp)).2]
    simp only [buildContainerMapAux, ho, hn]
    rw [mapInsert_of_fresh m0 (take12 o) (take12 n)
      (fun q hq => hfresh (o, n) (by simp) q hq)]
    rw [ih (m0 ++ [(take12 o, take12 n)])
      (fun p hp => hlen p (List.mem_cons_of_mem _ hp))
      ?_ ?_]
    · simp
    · intro p hp q hq
      rcases List.mem_append.1 hq with hq0 | hq1
      · exact hfresh p (List.mem_cons_of_mem _ hp) q hq0
      · have hq2 : q = (take12 o, take12 n) := by simpa using hq1
        rw [hq2]
        simp only []
        rw [beq_eq_false_iff_ne]
        intro heq
        have : take12 o ∈ rest.map (fun p => take12 p.1) := by
          rw [heq]
          exact List.mem_map_of_mem _ hp
        simp only [List.map_cons, List.nodup_cons] at hnd
        exact hnd.1 this
    · simp only [List.map_cons, List.nodup_cons] at hnd
      exact hnd.2

/-- Helper: Go-map lookup over the positional short-id bindings is the
first positional pair whose short old identifier matches. -/
theorem mapLookup_pairs (pairs : List (String × String)) (h : String) :
    mapLookup (pairs.map (fun p => (take12 p.1, take12 p.2))) h
      = (pairs.find? (fun p => take12 p.1 == h)).map (fun p => take12 p.2) := by
  induction pairs with
  | nil => rfl
  | cons pr rest ih =>
    unfold mapLookup
    simp only [List.map_cons, List.find?_cons]
    cases hc : (take12 pr.1 == h) with
    | true => simp [hc]
    | false =>
      simp only [hc]
      exact ih

/-- C6: on inputs whose positionally paired identifiers are at least 12
characters long and whose short old identifiers are pairwise distinct, the
Patcher rewrites exactly as the specification words it — an address is
rewritten to the i-th new short identifier precisely when it dissects as a
double-slash, colon-separated address whose host equals the i-th short old
identifier with i below the length of the shorter list; the unmatched tail
of the longer list is ignored, undissectable addresses are untouched. -/
theorem c6_patcher_positional (old new : List String) (cfg : TraefikConfig)
    (hlen : ∀ p ∈ old.zip new, 12 ≤ strLen p.1 ∧ 12 ≤ strLen p.2)
    (hnd : ((old.zip new).map (fun p => take12 p.1)).Nodup) :
    updateConfig old new cfg = some (specPatch old new cfg) := by
  unfold updateConfig buildContainerMap
  rw [buildContainerMapAux_spec (old.zip new) [] hlen (by simp) hnd]
  simp only [List.nil_append]
  have hfun : rewriteServer ((old.zip new).map (fun p => (take12 p.1, take12 p.2)))
      = specRewriteServer old new := by
    funext s
    unfold rewriteServer specRewriteServer
    cases hp : parseServerURL s.url with
    | none => rfl
    | some hostPort =>
      obtain ⟨host, port⟩ := hostPort
      simp only [mapLookup_pairs]
      cases hf : (old.zip new).find? (fun p => take12 p.1 == host) <;> simp [hf]
  unfold updateServers specPatch
  rw [hfun]

/-- C6 witness: on the concrete document cfg6 with one-element identifier
lists the Patcher output coincides with the spec-side patch. -/
theorem c6_patcher_witness :
    updateConfig ["aaaaaaaaaaaa"] ["cccccccccccc"] cfg6
      = some (specPatch ["aaaaaaaaaaaa"] ["cccccccccccc"] cfg6) :=
  c6_patcher_positional ["aaaaaaaaaaaa"] ["cccccccccccc"] cfg6 (by decide) (by decide)

/-- C7: whatever document the Patcher writes back differs from the document
it read only in server URLs: the router table, the service names, each
service's health-check sub-document, and each service's server count are
preserved verbatim. -/
theorem c7_patcher_frame (old new : List String) (cfg cfg2 : TraefikConfig)
    (h : updateConfig old new cfg = some cfg2) :
    cfg2.routers = cfg.routers
    ∧ cfg2.services.map Prod.fst = cfg.services.map Prod.fst
    ∧ cfg2.services.map (fun e => e.2.loadBalancer.healthCheck)
        = cfg.services.map (fun e => e.2.loadBalancer.healthCheck)
    ∧ cfg2.services.map (fun e => e.2.loadBalancer.servers.length)
        = cfg.services.map (fun e => e.2.loadBalancer.servers.length) := by
  unfold updateConfig at h
  cases hb : buildContainerMap old new with
  | none => rw [hb] at h; exact absurd h (by simp)
  | some cmap =>
    rw [hb] at h
    have hc : cfg2 = updateServers cmap cfg := (Option.some.inj h).symm
    rw [hc]
    unfold updateServers
    refine ⟨rfl, ?_, ?_, ?_⟩ <;> simp [List.map_map, Function.comp]

/-- C7 witness: the concrete patch of cfg6 yields cfg6res and preserves the
router table, service names, health checks, and server counts. -/
theorem c7_patcher_witness :
    cfg6res.routers = cfg6.routers
    ∧ cfg6res.services.map Prod.fst = cfg6.services.map Prod.fst
    ∧ cfg6res.services.map (fun e => e.2.loadBalancer.healthCheck)
        = cfg6.services.map (fun e => e.2.loadBalancer.healthCheck)
    ∧ cfg6res.services.map (fun e => e.2.loadBalancer.servers.length)
        = cfg6.services.map (fun e => e.2.loadBalancer.servers.length) :=
  c7_patcher_frame ["aaaaaaaaaaaa"] ["cccccccccccc"] cfg6 cfg6res (by decide)

/-- Helper: a character list is a prefix of itself followed by anything. -/
theorem isPrefixOf_self_append (a b : List Char) : a.isPrefixOf (a ++ b) = true := by
  induction a with
  | nil => simp
  | cons c t ih => simp [List.isPrefixOf, ih]

/-- Helper: a prefix test passed by a longer pattern is passed by its
front part. -/
theorem isPrefixOf_of_append (a b t : List Char)
    (h : (a ++ b).isPrefixOf t = true) : a.isPrefixOf t = true := by
  induction a generalizing t with
  | nil => simp
  | cons c rest ih =>
    cases t with
    | nil => simp [List.isPrefixOf] at h
    | cons d u =>
      simp only [List.cons_append, List.isPrefixOf, Bool.and_eq_true] at h ⊢
      exact ⟨h.1, ih u h.2⟩

/-- Helper: every key built by appending a suffix to a stem carries the
stem as a prefix. -/
theorem hasPrefixB_self_append (pre s : String) : hasPrefixB pre (pre ++ s) = true := by
  unfold hasPrefixB
  rw [String.data_append]
  exact isPrefixOf_self_append pre.data s.data

/-- Helper: a key under an extended stem is under the stem. -/
theorem hasPrefixB_extend (pre mid k : String)
    (h : hasPrefixB (pre ++ mid) k = true) : hasPrefixB pre k = true := by
  unfold hasPrefixB at h ⊢
  rw [String.data_append] at h
  exact isPrefixOf_of_append pre.data mid.data k.data h

/-- Helper: when no label key carries the stem, every stem-keyed lookup is
empty. -/
theorem labelGet_of_no_stem (labels : List (String × String)) (pre suffix : String)
    (hno : ∀ p ∈ labels, hasPrefixB pre p.1 = false) :
    labelGet labels (pre ++ suffix) = "" := by
  unfold labelGet
  cases hf : labels.find? (fun p => p.1 == pre ++ suffix) with
  | none => rfl
  | some q =>
    exfalso
    have hq : q.1 = pre ++ suffix := by
      have := List.find?_some hf
      exact eq_of_beq this
    have hmem := List.mem_of_find?_eq_some hf
    have := hno q hmem
    rw [hq, hasPrefixB_self_append] at this
    exact absurd this (by simp)

/-- Helper: when no label key carries the stem, the header-collection loop
returns its accumulator unchanged. -/
theorem collectHeaders_of_no_stem (jsonDec : String → Option (List (String × String)))
    (pre : String) (labels : List (String × String))
    (hno : ∀ p ∈ labels, hasPrefixB pre p.1 = false) :
    ∀ acc, collectHeaders jsonDec pre acc labels = acc := by
  induction labels with
  | nil => intro acc; rfl
  | cons hd tl ih =>
    intro acc
    obtain ⟨k, v⟩ := hd
    have hk : hasPrefixB pre k = false := hno (k, v) (by simp)
    have h1 : (k == pre ++ ".headers") = false := by
      cases hkk : (k == pre ++ ".headers") with
      | true =>
        exfalso
        have : k = pre ++ ".headers" := eq_of_beq hkk
        rw [this, hasPrefixB_self_append] at hk
        exact absurd hk (by simp)
      | false => rfl
    have h2 : hasPrefixB (pre ++ ".headers.") k = false := by
      cases hkk : hasPrefixB (pre ++ ".headers.") k with
      | true =>
        exfalso
        rw [hasPrefixB_extend pre ".headers." k hkk] at hk
        exact absurd hk (by simp)
      | false => rfl
    simp only [collectHeaders, h1, h2, Bool.false_eq_true, if_false]
    exact ih (fun p hp => hno p (List.mem_cons_of_mem _ hp)) acc

/-- Helper: when no label key carries the health-check stem, the built spec
has every field empty. -/
theorem hcHasValues_mk_of_no_stem (jsonDec : String → Option (List (String × String)))
    (labels : List (String × String)) (svc : String)
    (hno : ∀ p ∈ labels, hasPrefixB (hcKeyBase svc) p.1 = false) :
    hcHasValues (mkHealthCheck jsonDec labels svc) = false := by
  unfold mkHealthCheck hcHasValues
  simp only [labelGet_of_no_stem labels (hcKeyBase svc) _ hno,
    collectHeaders_of_no_stem jsonDec (hcKeyBase svc) labels hno]
  simp

/-- C8: the Synthesizer attaches a health-check sub-document to a backend
service exactly when the spec built from the container's labels has at
least one non-empty field; an attached spec is never all-empty and is the
label-built spec itself, whose fields are each the (possibly empty) value
of the corresponding label key, so serialization with empty fields omitted
publishes only the non-empty fields. -/
theorem c8_healthcheck_attachment (jsonDec : String → Option (List (String × String)))
    (labels : List (String × String)) (svc : String) :
    (∀ hc, attachHealthCheck jsonDec labels svc = some hc →
        hcHasValues hc = true ∧ hc = mkHealthCheck jsonDec labels svc)
    ∧ ((attachHealthCheck jsonDec labels svc).isSome = true ↔
        hcHasValues (mkHealthCheck jsonDec labels svc) = true) := by
  unfold attachHealthCheck extractHealthCheck
  cases hcfg : labels.any (fun p => hasPrefixB (hcKeyBase svc) p.1) with
  | true =>
    simp only [hcfg, if_true]
    cases hv : hcHasValues (mkHealthCheck jsonDec labels svc) with
    | true =>
      simp only [hv, if_true]
      exact ⟨fun hc hsome => ⟨(Option.some.inj hsome) ▸ hv,
        (Option.some.inj hsome).symm⟩, by simp⟩
    | false =>
      simp only [hv, Bool.false_eq_true, if_false]
      exact ⟨fun hc hsome => absurd hsome (by simp), by simp⟩
  | false =>
    have hno : ∀ p ∈ labels, hasPrefixB (hcKeyBase svc) p.1 = false := by
      intro p hp
      have := List.any_eq_false.1 hcfg p hp
      simpa using this
    simp only [hcfg, Bool.false_eq_true, if_false]
    constructor
    · intro hc hsome
      exact absurd hsome (by simp)
    · rw [hcHasValues_mk_of_no_stem jsonDec labels svc hno]
      simp

/-- Helper: when no inspect call fails at tick t, the per-tick loop reports
whether every container of the list is healthy at t. -/
theorem checkAllHealthy_of_no_err (health : String → Nat → HealthState) (t : Nat)
    (ids : List String) (herr : ∀ id ∈ ids, health id t ≠ HealthState.inspectErr) :
    checkAllHealthy health t ids = Except.ok (allHealthyB health ids t) := by
  induction ids with
  | nil => rfl
  | cons cid rest ih =>
    have hrest := ih (fun id hid => herr id (List.mem_cons_of_mem _ hid))
    cases hh : health cid t with
    | noCheck =>
      simp [checkAllHealthy, checkContainerHealth, hh, allHealthyB, healthyB,
        List.all_cons] at hrest ⊢
      exact hrest
    | status s =>
      cases hs : (s == "healthy") with
      | true =>
        simp [checkAllHealthy, checkContainerHealth, hh, hs, allHealthyB, healthyB,
          List.all_cons] at hrest ⊢
        exact hrest
      | false =>
        simp [checkAllHealthy, checkContainerHealth, hh, hs, allHealthyB, healthyB,
          List.all_cons]
    | inspectErr => exact absurd hh (herr cid (by simp))

/-- Helper: characterization of the gate loop from any start tick, when no
inspect call ever fails: success means some in-budget tick had everything
healthy, timeout means no in-budget tick did. -/
theorem waitForHealthyAux_characterization (health : String → Nat → HealthState)
    (ids : List String) (herr : ∀ id ∈ ids, ∀ t, health id t ≠ HealthState.inspectErr) :
    ∀ fuel t,
      (waitForHealthyAux health ids t fuel = Except.ok () ↔
        ∃ k, k < fuel ∧ allHealthyB health ids (t + k) = true)
      ∧ (waitForHealthyAux health ids t fuel = Except.error GateError.timeout ↔
        ∀ k, k < fuel → allHealthyB health ids (t + k) = false) := by
  intro fuel
  induction fuel with
  | zero =>
    intro t
    constructor
    · simp [waitForHealthyAux]
    · simp [waitForHealthyAux]
  | succ n ih =>
    intro t
    have hcheck := checkAllHealthy_of_no_err health t ids (fun id hid => herr id hid t)
    cases hb : allHealthyB health ids t with
    | true =>
      rw [hb] at hcheck
      constructor
      · simp only [waitForHealthyAux, hcheck]
        constructor
        · intro _
          exact ⟨0, Nat.succ_pos n, by simpa using hb⟩
        · intro _
          trivial
      · simp only [waitForHealthyAux, hcheck]
        constructor
        · intro h
          exact absurd h (by simp)
        · intro h
          have := h 0 (Nat.succ_pos n)
          simp [hb] at this
    | false =>
      rw [hb] at hcheck
      have ihn := ih (t + 1)
      constructor
      · simp only [waitForHealthyAux, hcheck]
        rw [ihn.1]
        constructor
        · rintro ⟨k, hk, hall⟩
          refine ⟨k + 1, by omega, ?_⟩
          have : t + (k + 1) = t + 1 + k := by omega
          rw [this]
          exact hall
        · rintro ⟨k, hk, hall⟩
          cases k with
          | zero =>
            simp at hall
            rw [hall] at hb
            exact absurd hb (by simp)
          | succ j =>
            refine ⟨j, by omega, ?_⟩
            have : t + 1 + j = t + (j + 1) := by omega
            rw [this]
            exact hall
      · simp only [waitForHealthyAux, hcheck]
        rw [ihn.2]
        constructor
        · intro h k hk
          cases k with
          | zero => simpa using hb
          | succ j =>
            have : t + (j + 1) = t + 1 + j := by omega
            rw [this]
            exact h j (by omega)
        · intro h k hk
          have : t + 1 + k = t + (k + 1) := by omega
          rw [this]
          exact h (k + 1) (by omega)

/-- C9: when no inspect call fails, the health gate treats a container with
no configured health check as immediately healthy, returns success exactly
when some tick within the budget finds every container healthy, and
returns a timeout error exactly when no tick within the budget does. -/
theorem c9_health_gate (health : String → Nat → HealthState) (ids : List String)
    (ticks : Nat) (herr : ∀ id ∈ ids, ∀ t, health id t ≠ HealthState.inspectErr) :
    checkContainerHealth HealthState.noCheck = Except.ok true
    ∧ (waitForHealthyContainers health ids ticks = Except.ok () ↔
        ∃ k, k < ticks ∧ allHealthyB health ids k = true)
    ∧ (waitForHealthyContainers health ids ticks = Except.error GateError.timeout ↔
        ∀ k, k < ticks → allHealthyB health ids k = false) := by
  have hch := waitForHealthyAux_characterization health ids herr ticks 0
  refine ⟨rfl, ?_, ?_⟩
  · unfold waitForHealthyContainers
    rw [hch.1]
    simp
  · unfold waitForHealthyContainers
    rw [hch.2]
    simp

/-- C9 witness: two containers that both become healthy at tick 2 make the
gate succeed within a five-tick budget. -/
theorem c9_gate_witness :
    waitForHealthyContainers gateHealth9 ["a", "b"] 5 = Except.ok () :=
  ((c9_health_gate gateHealth9 ["a", "b"] 5
      (by intro id _ t; unfold gateHealth9; split <;> simp)).2.1).mpr
    ⟨2, by omega, by decide⟩

/-- Helper: the container-map loop succeeds on a pair list exactly when
every pair can be sliced to twelve characters. -/
theorem buildContainerMapAux_isSome (pairs : List (String × String)) :
    ∀ m0, (buildContainerMapAux m0 pairs).isSome = true ↔
      ∀ p ∈ pairs, 12 ≤ strLen p.1 ∧ 12 ≤ strLen p.2 := by
  induction pairs with
  | nil => intro m0; simp [buildContainerMapAux]
  | cons pr rest ih =>
    intro m0
    obtain ⟨o, n⟩ := pr
    by_cases ho : 12 ≤ strLen o
    · by_cases hn : 12 ≤ strLen n
      · simp only [buildContainerMapAux, shortId, ho, hn, if_pos]
        rw [ih]
        simp [ho, hn]
      · simp only [buildContainerMapAux, shortId, ho, hn, if_pos, if_neg hn]
        simp [hn]
    · simp only [buildContainerMapAux, shortId, if_neg ho]
      cases hsn : (if 12 ≤ strLen n then some (take12 n) else none) with
      | none => simp [ho]
      | some sn => simp [ho]

/-- C10: the Patcher slices the first 12 characters of every positionally
paired identifier unconditionally, so its container-map construction is
total exactly when every paired identifier — and only the paired ones, the
unmatched tail being never sliced — has at least 12 characters; under that
precondition the panic branch is unreachable. -/
theorem c10_short_slice_totality (old new : List String) :
    (buildContainerMap old new).isSome = true ↔
      ∀ p ∈ old.zip new, 12 ≤ strLen p.1 ∧ 12 ≤ strLen p.2 :=
  buildContainerMapAux_isSome (old.zip new) []

end Ztd
